import Mathlib

/-!
# Verification of the `preto` transpiler

A shallow embedding of the Go program `preto`, a transpiler from an
indentation-based schema DSL to Protocol-Buffers text, together with
theorems settling the frozen claims about its specification.

Modelling conventions:
* Go strings and lexemes are `List Char` (`Str`); all lexemes here are ASCII,
  so byte indices used by the Go code coincide with character indices.
* The lexer's `bufio.Reader` with `read`/`unread` is modelled by passing the
  remaining input explicitly; `read` at end of input yields the rune 0.
* Go panics become `Except.error` carrying the panic message.  Places where
  the Go code provably loops forever (an empty `switch` case that never
  consumes the peeked token, or `readFunc` accepting the rune 0 at end of
  input) return an `Except.error` whose message starts with `diverges:`.
* The producer/consumer channel is modelled by lexing the whole document to a
  token list and then running the parser on that list; a receive on the
  closed channel yields the zero `item` (kind `itemUnknown`, empty lexeme),
  exactly as in Go.
* The state-machine drivers (`lexer.lex` and the parser's loops) are given a
  fuel parameter; running out of fuel is a distinguished error
  (`fuelErrMsg`), never confused with a Go panic, and concrete runs below
  always return `.ok`/a genuine panic, proving the fuel was sufficient.
-/

/-- Go strings / lexemes, as lists of characters. -/
abbrev Str := List Char

/-- The rune 0 returned by `lexer.read` at end of input. -/
def rune0 : Char := Char.ofNat 0

/-- The double-quote character. -/
def dquote : Char := Char.ofNat 34

/-- `type itemType int` with its constants (verbatim from the source). -/
inductive ItemType where
  | itemUnknown
  | itemError
  | itemPackage
  | itemMessageType
  | itemIdentifier
  | itemCommentStart
  | itemLeftMeta
  | itemRightMeta
  | itemEqual
  | itemNumber
  | itemText
  | itemFieldType
  | itemFieldName
  | itemFieldNum
  | itemFieldOption
  | itemNewline
  | itemWhitespace
  | itemOption
  | itemOptionName
  | itemEnum
  | itemOneof
  deriving DecidableEq, Repr

open ItemType

/-- `func (i itemType) String() string`. -/
def itemTypeString : ItemType → String
  | itemError => "ERROR"
  | itemPackage => "PACKAGE"
  | itemMessageType => "MESSAGETYPE"
  | itemIdentifier => "IDENT"
  | itemCommentStart => "COMMENT"
  | itemFieldType => "FIELDTYPE"
  | itemFieldName => "FIELDNAME"
  | itemFieldOption => "FIELDOPTION"
  | itemFieldNum => "FIELDNUM"
  | itemNewline => "NL"
  | itemWhitespace => "WS"
  | itemOption => "OPTIONTYPE"
  | itemOptionName => "OPTIONVAL"
  | _ => "LOL"

/-- `type item struct { t itemType; s string }`. -/
structure Item where
  t : ItemType
  s : Str
  deriving DecidableEq, Repr

/-- `func isLetter(ch rune) bool`. -/
def isLetter (ch : Char) : Bool :=
  ('a' ≤ ch && ch ≤ 'z') || ('A' ≤ ch && ch ≤ 'Z') || ch == '_'

/-- `func isNumber(ch rune) bool`. -/
def isNumber (ch : Char) : Bool :=
  '0' ≤ ch && ch ≤ '9'

/-- The space/tab test used by `readWhitespace` (`ch != ' ' && ch != '\t'`
negated). -/
def isSpaceTab (ch : Char) : Bool :=
  ch == ' ' || ch == '\t'

/-- `func readWhitespace(l reader) string`: consume leading spaces/tabs and
return them; the first non space/tab rune (or end of input) is unread. -/
def readWhitespace (input : Str) : Str × Str :=
  (input.takeWhile isSpaceTab, input.dropWhile isSpaceTab)

/-- `func readFunc(l reader, ok func(rune) bool) string`: consume runes while
`ok`, unread the first failing rune, then consume trailing spaces/tabs.
Faithful whenever `ok rune0 = false` (true of every predicate passed to it
except the ones in `readStr` and `scanFieldOptions`, which inline the
end-of-input handling because the Go loop would not terminate there). -/
def readFunc (ok : Char → Bool) (input : Str) : Str × Str :=
  (input.takeWhile ok, (readWhitespace (input.dropWhile ok)).2)

/-- Character class of `readAlphanum`. -/
def isAlphanumChar (ch : Char) : Bool :=
  isLetter ch || isNumber ch || ch == '_' || ch == '.'

/-- `func readAlphanum(l reader) string`. -/
def readAlphanum (input : Str) : Str × Str :=
  readFunc isAlphanumChar input

/-- `func readNum(l reader) string`. -/
def readNum (input : Str) : Str × Str :=
  readFunc isNumber input

/-- Character class of `readFieldType`. -/
def isFieldTypeChar (ch : Char) : Bool :=
  isLetter ch || isNumber ch || ch == '_' || ch == '[' || ch == ']'

/-- `func readFieldType(l reader) string`. -/
def readFieldType (input : Str) : Str × Str :=
  readFunc isFieldTypeChar input

/-- Character class of `readOption`: note that `'.'` is NOT accepted
(unlike `readAlphanum`). -/
def isOptionChar (ch : Char) : Bool :=
  isLetter ch || isNumber ch || ch == '_' || ch == '(' || ch == ')'

/-- `func readOption(l reader) string`. -/
def readOption (input : Str) : Str × Str :=
  readFunc isOptionChar input

/-- The predicate of the inner `readFunc` in `readStr`:
`ch != '"' && ch != '\n'`. -/
def strPred (ch : Char) : Bool :=
  ch != dquote && ch != '\n'

/-- `func readStr(l reader) string`: an opening double quote, content up to
the next double quote or newline, and a closing double quote; quotes are
retained in the result.  The missing-opening and missing-closing quote
panics are the Go ones; at end of input inside the content the Go
`readFunc` loop accepts rune 0 forever, which we record as divergence. -/
def readStr (input : Str) : Except String (Str × Str) :=
  match input with
  | c :: rest =>
    if c = dquote then
      let content := rest.takeWhile strPred
      match rest.dropWhile strPred with
      | [] => .error "diverges: unterminated string runs to end of input"
      | c2 :: r3 =>
        if c2 = dquote then .ok (dquote :: (content ++ [dquote]), r3)
        else .error "string missing end quote"
    else .error "string missing opening quote"
  | [] => .error "string missing opening quote"

/-- The states of the lexer state machine (`scanFn` values in the source). -/
inductive ScanState where
  | text          -- scanText
  | indent        -- scanIndent
  | fileOption    -- scanFileOption
  | field         -- scanField
  | fieldType     -- scanFieldType
  | fieldNum      -- scanFieldNum
  | fieldEnd      -- scanFieldEnd
  | fieldOptions  -- scanFieldOptions
  | comment       -- scanComment
  | lineEnd       -- scanEnd
  deriving DecidableEq, Repr

/-- Result of one state function: emitted items and either the next state
with the remaining input, or `none` for termination. -/
abbrev StepResult := Except String (List Item × Option (ScanState × Str))

/-- `func scanText(l *lexer) scanFn`: at column 0. -/
def scanText (input : Str) : StepResult :=
  match input with
  | [] => .ok ([], none)  -- read gives rune 0: eof
  | ch :: rest =>
    if ch = '\n' then .ok ([⟨itemNewline, []⟩], some (.text, rest))
    else if ch = ' ' || ch = '\t' || isLetter ch then .ok ([], some (.indent, input))
    else if ch = '#' then .ok ([], some (.comment, input))
    else .ok ([], none)  -- default: wut

/-- `func scanComment(l *lexer) scanFn`: `bufio.ReadLine` semantics — the
rest of the physical line (a trailing CR is dropped only as part of CRLF),
consuming the terminator; at end of input with no data `ReadLine` returns
`io.EOF` and the Go code panics with it. -/
def scanComment (input : Str) : StepResult :=
  match input with
  | [] => .error "EOF"
  | _ =>
    let raw := input.takeWhile (fun c => c != '\n')
    let rest := input.dropWhile (fun c => c != '\n')
    let line := match rest with
      | _ :: _ => if raw.getLast? = some '\r' then raw.dropLast else raw
      | [] => raw
    let rest2 := match rest with
      | _ :: r => r
      | [] => []
    .ok ([⟨itemCommentStart, line⟩, ⟨itemNewline, []⟩], some (.text, rest2))

/-- `func scanIndent(l *lexer) scanFn`: leading whitespace (emitted only when
non-empty), then a comment check, then a keyword/identifier dispatch. -/
def scanIndent (input : Str) : StepResult :=
  let (ws, r1) := readWhitespace input
  let wsTok : List Item := if ws.isEmpty then [] else [⟨itemWhitespace, ws⟩]
  -- peek for '#': read then unread
  if r1.headD rune0 = '#' then .ok (wsTok, some (.lineEnd, r1))
  else
    let (x, r2) := readAlphanum r1
    if x = "option".toList then .ok (wsTok, some (.fileOption, r2))
    else if x = "msg".toList then
      let (y, r3) := readAlphanum r2
      .ok (wsTok ++ [⟨itemMessageType, y⟩], some (.lineEnd, r3))
    else if x = "package".toList then
      let (y, r3) := readAlphanum r2
      .ok (wsTok ++ [⟨itemPackage, y⟩], some (.lineEnd, r3))
    else if x = "enum".toList then
      let (y, r3) := readAlphanum r2
      .ok (wsTok ++ [⟨itemEnum, y⟩], some (.lineEnd, r3))
    else if x = "oneof".toList then
      let (y, r3) := readAlphanum r2
      .ok (wsTok ++ [⟨itemOneof, y⟩], some (.lineEnd, r3))
    else
      -- default: emit identifier, swallow whitespace, scan the field body
      .ok (wsTok ++ [⟨itemIdentifier, x⟩], some (.field, (readWhitespace r2).2))

/-- `func scanFileOption(l *lexer) scanFn`: the option key (via
`readOption`), whitespace, then a quoted value (via `readStr`). -/
def scanFileOption (input : Str) : StepResult :=
  let (o, r1) := readOption input
  let r2 := (readWhitespace r1).2
  match readStr r2 with
  | .error e => .error e
  | .ok (s, r3) => .ok ([⟨itemOption, o⟩, ⟨itemOptionName, s⟩], some (.lineEnd, r3))

/-- `func scanField(l *lexer) scanFn`: peek; a digit means an enum value
line (straight to the tag), otherwise a field type follows. -/
def scanField (input : Str) : StepResult :=
  if isNumber (input.headD rune0) then .ok ([], some (.fieldNum, input))
  else .ok ([], some (.fieldType, input))

/-- `func scanFieldType(l *lexer) scanFn`. -/
def scanFieldType (input : Str) : StepResult :=
  let (t, r1) := readFieldType input
  .ok ([⟨itemFieldType, t⟩], some (.fieldNum, r1))

/-- `func scanFieldNum(l *lexer) scanFn`: note that `readNum` happily
returns the empty string when no digit is present. -/
def scanFieldNum (input : Str) : StepResult :=
  let (n, r1) := readNum input
  .ok ([⟨itemFieldNum, n⟩], some (.fieldEnd, r1))

/-- `func scanFieldEnd(l *lexer) scanFn`: skip whitespace; a `[` (unread
again) starts field options, anything else goes to the line end. -/
def scanFieldEnd (input : Str) : StepResult :=
  let r1 := (readWhitespace input).2
  if r1.headD rune0 = '[' then .ok ([], some (.fieldOptions, r1))
  else .ok ([], some (.lineEnd, r1))

/-- `func scanFieldOptions(l *lexer) scanFn`: everything between `[` and the
first `]` on the line, verbatim, as one token.  A newline before the `]` is
the Go panic `expecting opening ] for option`; end of input inside the
bracket makes the Go `readFunc` loop accept rune 0 forever (divergence). -/
def scanFieldOptions (input : Str) : StepResult :=
  match input with
  | c :: rest =>
    if c = '[' then
      let pred := fun ch => ch != ']' && ch != '\n'
      let s := rest.takeWhile pred
      match rest.dropWhile pred with
      | [] => .error "diverges: unterminated field option runs to end of input"
      | c2 :: r2 =>
        if c2 = ']' then .ok ([⟨itemFieldOption, s⟩], some (.lineEnd, r2))
        else .error "expecting opening ] for option"
    else .error "expecting opening [ for option but got"
  | [] => .error "expecting opening [ for option but got"

/-- `func scanEnd(l *lexer) scanFn`: skip trailing whitespace; `#` yields to
the comment scanner, a newline emits `itemNewline` and restarts a line;
anything else — including the rune 0 at end of input — is the panic
`unexpected line end <ch>`. -/
def scanEnd (input : Str) : StepResult :=
  let r1 := (readWhitespace input).2
  match r1 with
  | c :: r2 =>
    if c = '#' then .ok ([], some (.comment, r1))
    else if c = '\n' then .ok ([⟨itemNewline, []⟩], some (.text, r2))
    else .error ("unexpected line end ".push c)
  | [] => .error ("unexpected line end ".push rune0)

/-- Dispatch one state function. -/
def lexStep : ScanState → Str → StepResult
  | .text, i => scanText i
  | .indent, i => scanIndent i
  | .fileOption, i => scanFileOption i
  | .field, i => scanField i
  | .fieldType, i => scanFieldType i
  | .fieldNum, i => scanFieldNum i
  | .fieldEnd, i => scanFieldEnd i
  | .fieldOptions, i => scanFieldOptions i
  | .comment, i => scanComment i
  | .lineEnd, i => scanEnd i

/-- The distinguished out-of-fuel message (a model artifact, never a Go
panic message). -/
def fuelErrMsg : String := "model artifact: out of fuel"

/-- `func (l *lexer) lex()`: drive the state machine to completion,
collecting the emitted tokens in order. -/
def lexRunF : Nat → ScanState → Str → Except String (List Item)
  | 0, _, _ => .error fuelErrMsg
  | fuel + 1, st, input =>
    match lexStep st input with
    | .error e => .error e
    | .ok (toks, none) => .ok toks
    | .ok (toks, some (st2, rest)) =>
      match lexRunF fuel st2 rest with
      | .error e => .error e
      | .ok toks2 => .ok (toks ++ toks2)

/-- Tokenize a whole document, starting in `scanText` as `lex` does. -/
def lex (input : Str) : Except String (List Item) :=
  lexRunF (4 * input.length + 8) .text input

/-! ## Parser / stream translator -/

/-- `func (p *parser) next() item`: the zero `item` on a closed channel. -/
def pnext (ts : List Item) : Item × List Item :=
  match ts with
  | [] => (⟨itemUnknown, []⟩, [])
  | i :: r => (i, r)

/-- `func (p *parser) peek() item`. -/
def ppeek (ts : List Item) : Item :=
  (pnext ts).1

/-- `const indentSpace = "  "`. -/
def indentSpace : Str := "  ".toList

/-- The indentation prefix written by `parser.write`:
`strings.Repeat(indentSpace, lvl)`. -/
def writeIndent (lvl : Nat) : Str :=
  (List.replicate lvl indentSpace).flatten

/-- `strings.TrimLeft(s, "# ")`: drop every leading `#` or space. -/
def trimLeftHashSpace (s : Str) : Str :=
  s.dropWhile (fun c => c == '#' || c == ' ')

/-- `strings.Index(s, "]")` for the single-character needle `]`:
the index of the first `]`, if any. -/
def strIndex (s : Str) (c : Char) : Option Nat :=
  match s with
  | [] => none
  | a :: r => if a = c then some 0 else (strIndex r c).map (· + 1)

/-- Go slicing `s[i:]`: out-of-range bounds are a runtime panic. -/
def goSliceFrom (s : Str) (i : Nat) : Except String Str :=
  if i ≤ s.length then .ok (s.drop i) else .error "slice bounds out of range"

/-- `func toProtoType(t string) string`: the builtin alias table,
`str → string`, everything else unchanged. -/
def toProtoType (t : Str) : Str :=
  if t = "str".toList then "string".toList else t

/-- `func convertType(s string) string`: `map[K]V` → `map<K', V'>`
(splitting at the FIRST `]`, via `strings.Index`; with no `]` present the
Go slice `s[4:i]` with `i = -1` panics), `[]T` → `repeated T'`, otherwise
`optional T'`. -/
def convertType (s : Str) : Except String Str :=
  if "map[".toList.isPrefixOf s then
    match strIndex s ']' with
    | none => .error "slice bounds out of range"
    | some i =>
      .ok ("map<".toList ++ toProtoType ((s.take i).drop 4) ++ ", ".toList ++
           toProtoType (s.drop (i + 1)) ++ ">".toList)
  else if "[]".toList.isPrefixOf s then
    .ok ("repeated ".toList ++ toProtoType (s.drop 2))
  else
    .ok ("optional ".toList ++ toProtoType s)

/-- `func (p *parser) parseNewline()`: consume whitespace tokens until a
non-whitespace token, which must be a newline (else the Go panic); writes a
newline to the output. -/
def parseNewline (ts : List Item) : Except String (Str × List Item) :=
  let rest := ts.dropWhile (fun i => i.t == itemWhitespace)
  let (nl, r) := pnext rest
  if nl.t = itemNewline then .ok ("\n".toList, r)
  else .error ("parser: expected newline, got " ++ itemTypeString nl.t)

/-- `func (p *parser) consumeNewlines()`. -/
def consumeNewlines (ts : List Item) : List Item :=
  ts.dropWhile (fun i => i.t == itemNewline)

/-- `func (p *parser) parseField(lvl int)`: Identifier, FieldType, FieldNum
in that order (each mismatch is a Go panic), the converted type, an
optional FieldOption in brackets, then either a trailing comment or a
newline terminating the line with `;`. -/
def parseField (lvl : Nat) (ts : List Item) : Except String (Str × List Item) :=
  let (ident, ts1) := pnext ts
  if ident.t ≠ itemIdentifier then .error "expected identifier" else
  let (fieldType, ts2) := pnext ts1
  if fieldType.t ≠ itemFieldType then
    .error ("parser: expected field type but got " ++ itemTypeString fieldType.t)
  else
  let (fieldNum, ts3) := pnext ts2
  if fieldNum.t ≠ itemFieldNum then .error "parser expected field num" else
  match convertType fieldType.s with
  | .error e => .error e
  | .ok ct =>
    let out1 := writeIndent lvl ++ ct ++ " ".toList ++ ident.s ++ " = ".toList ++ fieldNum.s
    let (rem0, ts4) := pnext ts3
    let step : Str × Item × List Item :=
      if rem0.t = itemFieldOption then
        let (rem1, ts5) := pnext ts4
        (" [".toList ++ rem0.s ++ "]".toList, rem1, ts5)
      else ([], rem0, ts4)
    let out2 := step.1
    let rem := step.2.1
    let ts5 := step.2.2
    if rem.t = itemCommentStart then
      match parseNewline ts5 with
      | .error e => .error e
      | .ok (nl, ts6) =>
        .ok (out1 ++ out2 ++ "; // ".toList ++ trimLeftHashSpace rem.s ++ nl, ts6)
    else if rem.t = itemNewline then
      .ok (out1 ++ out2 ++ ";\n".toList, ts5)
    else .error "parser: unknown field comment"

/-- The loop body of `parser.parseEnum`: `messageLevel` is established by
the first child; an Identifier child demands a FieldNum (`<name> = <tag>;`),
a Comment child emits `// ` plus the lexeme with its first two bytes Go
-sliced away (`j.s[2:]` — a panic when the lexeme is shorter than two
characters); an optional trailing comment is appended raw; then the line's
newline is consumed. -/
def parseEnumLoopF : Nat → Nat → Nat → List Item → Except String (Str × List Item)
  | 0, _, _, _ => .error fuelErrMsg
  | fuel + 1, lvl, messageLevel, ts =>
    let j := ppeek ts
    if j.t = itemNewline then parseEnumLoopF fuel lvl messageLevel (pnext ts).2
    else if j.t ≠ itemWhitespace then .ok (writeIndent lvl ++ "\x7d\n".toList, ts)
    else
      let messageLevel := if messageLevel = 0 then j.s.length else messageLevel
      if j.s.length < messageLevel then .ok (writeIndent lvl ++ "\x7d\n".toList, ts)
      else
        let ts1 := (pnext ts).2     -- consume ws
        let (j2, ts2) := pnext ts1
        let emit1 : Except String Str :=
          if j2.t = itemIdentifier then
            let k := ppeek ts2
            if k.t ≠ itemFieldNum then .error "expected field num"
            else .ok (writeIndent messageLevel ++ j2.s ++ " = ".toList ++ k.s ++ ";".toList)
          else if j2.t = itemCommentStart then
            match goSliceFrom j2.s 2 with
            | .error e => .error e
            | .ok tail => .ok (writeIndent messageLevel ++ "// ".toList ++ tail)
          else .ok []
        match emit1 with
        | .error e => .error e
        | .ok out1 =>
          let ts3 := if j2.t = itemIdentifier then (pnext ts2).2 else ts2
          let j3 := ppeek ts3
          let (out2, ts4) :=
            if j3.t = itemCommentStart then ((" // ".toList ++ j3.s), (pnext ts3).2)
            else ([], ts3)
          match parseNewline ts4 with
          | .error e => .error e
          | .ok (nl, ts5) =>
            match parseEnumLoopF fuel lvl messageLevel ts5 with
            | .error e => .error e
            | .ok (outRec, ts6) => .ok (out1 ++ out2 ++ nl ++ outRec, ts6)

/-- `func (p *parser) parseEnum(lvl int)`. -/
def parseEnumF (fuel lvl : Nat) (ts : List Item) : Except String (Str × List Item) :=
  let (i, ts1) := pnext ts
  if i.t ≠ itemEnum then .error "expected enum type"
  else
    match parseNewline ts1 with
    | .error e => .error e
    | .ok (nl, ts2) =>
      match parseEnumLoopF fuel lvl 0 ts2 with
      | .error e => .error e
      | .ok (body, ts3) =>
        .ok (writeIndent lvl ++ "enum ".toList ++ i.s ++ " \x7b".toList ++ nl ++ body, ts3)

/-- The loop body of `parser.parseOneof`: same level discipline as a
message, every child parsed by `parseField` at the established level. -/
def parseOneofLoopF : Nat → Nat → Nat → List Item → Except String (Str × List Item)
  | 0, _, _, _ => .error fuelErrMsg
  | fuel + 1, lvl, messageLevel, ts =>
    let j := ppeek ts
    if j.t = itemNewline then parseOneofLoopF fuel lvl messageLevel (pnext ts).2
    else if j.t ≠ itemWhitespace then .ok (writeIndent lvl ++ "\x7d\n".toList, ts)
    else
      let messageLevel := if messageLevel = 0 then j.s.length else messageLevel
      if j.s.length < messageLevel then .ok (writeIndent lvl ++ "\x7d\n".toList, ts)
      else
        match parseField messageLevel (pnext ts).2 with
        | .error e => .error e
        | .ok (out1, ts2) =>
          match parseOneofLoopF fuel lvl messageLevel ts2 with
          | .error e => .error e
          | .ok (outRec, ts3) => .ok (out1 ++ outRec, ts3)

/-- `func (p *parser) parseOneof(lvl int)`. -/
def parseOneofF (fuel lvl : Nat) (ts : List Item) : Except String (Str × List Item) :=
  let (i, ts1) := pnext ts
  if i.t ≠ itemOneof then .error "expected oneof type"
  else
    match parseNewline ts1 with
    | .error e => .error e
    | .ok (nl, ts2) =>
      match parseOneofLoopF fuel lvl 0 ts2 with
      | .error e => .error e
      | .ok (body, ts3) =>
        .ok (writeIndent lvl ++ "oneof ".toList ++ i.s ++ " \x7b".toList ++ nl ++ body, ts3)

mutual

/-- `func (p *parser) parseMessage(lvl int)`: the header token, the opening
`message <Name> {` line, then the indentation-scoped loop, then `}`. -/
def parseMessageF : Nat → Nat → List Item → Except String (Str × List Item)
  | 0, _, _ => .error fuelErrMsg
  | fuel + 1, lvl, ts =>
    let (i, ts1) := pnext ts
    if i.t ≠ itemMessageType then .error "expected message type"
    else
      match parseNewline ts1 with
      | .error e => .error e
      | .ok (nl, ts2) =>
        match parseMessageLoopF fuel lvl 0 ts2 with
        | .error e => .error e
        | .ok (body, ts3) =>
          .ok (writeIndent lvl ++ "message ".toList ++ i.s ++ " \x7b".toList ++ nl ++ body, ts3)
termination_by structural fuel lvl ts => fuel

/-- The loop of `parser.parseMessage`: skip newline runs; a non-whitespace
peek closes the block; the first whitespace child fixes `messageLevel`; a
shallower whitespace closes the block WITHOUT consuming the peeked token;
otherwise the whitespace is consumed and the child dispatched. -/
def parseMessageLoopF : Nat → Nat → Nat → List Item → Except String (Str × List Item)
  | 0, _, _, _ => .error fuelErrMsg
  | fuel + 1, lvl, messageLevel, ts =>
    let j := ppeek ts
    if j.t = itemNewline then parseMessageLoopF fuel lvl messageLevel (consumeNewlines ts)
    else if j.t ≠ itemWhitespace then .ok (writeIndent lvl ++ "\x7d\n".toList, ts)
    else
      let messageLevel := if messageLevel = 0 then j.s.length else messageLevel
      if j.s.length < messageLevel then .ok (writeIndent lvl ++ "\x7d\n".toList, ts)
      else
        match parseMessageInnerF fuel messageLevel (pnext ts).2 with
        | .error e => .error e
        | .ok (out1, ts2) =>
          match parseMessageLoopF fuel lvl messageLevel ts2 with
          | .error e => .error e
          | .ok (out2, ts3) => .ok (out1 ++ out2, ts3)
termination_by structural fuel lvl messageLevel ts => fuel

/-- `func (p *parser) parseMessageInner(lvl int)`: dispatch one indented
child: comment (with `strings.TrimLeft(i.s, "# ")`), field, nested enum /
message / oneof, or nothing for a newline. -/
def parseMessageInnerF : Nat → Nat → List Item → Except String (Str × List Item)
  | 0, _, _ => .error fuelErrMsg
  | fuel + 1, lvl, ts =>
    let i := ppeek ts
    if i.t = itemCommentStart then
      match parseNewline (pnext ts).2 with
      | .error e => .error e
      | .ok (nl, ts2) =>
        .ok (writeIndent lvl ++ "// ".toList ++ trimLeftHashSpace i.s ++ nl, ts2)
    else if i.t = itemIdentifier then parseField lvl ts
    else if i.t = itemEnum then parseEnumF fuel lvl ts
    else if i.t = itemMessageType then parseMessageF fuel lvl ts
    else if i.t = itemOneof then parseOneofF fuel lvl ts
    else if i.t = itemNewline then .ok ([], ts)
    else .error ("parser: unknown message contents" ++ itemTypeString i.t)
termination_by structural fuel lvl ts => fuel

end

/-- `func (p *parser) parse()`: the top-level loop.  The `itemEnum` and
`itemCommentStart` cases are empty in the source (their actions are
commented out) and the `switch` has no default case, so on any such token
the loop peeks the same head forever without consuming it: the Go process
spins; these are recorded as `diverges:` errors. -/
def parseLoopF : Nat → List Item → Except String (Str × List Item)
  | 0, _ => .error fuelErrMsg
  | fuel + 1, ts =>
    let i := ppeek ts
    if i.t = itemUnknown then .ok ([], ts)
    else if i.t = itemNewline then
      match parseLoopF fuel (pnext ts).2 with
      | .error e => .error e
      | .ok (o, r) => .ok ("\n".toList ++ o, r)
    else if i.t = itemWhitespace then
      match parseNewline ts with
      | .error e => .error e
      | .ok (nl, ts2) =>
        match parseLoopF fuel ts2 with
        | .error e => .error e
        | .ok (o, r) => .ok (nl ++ o, r)
    else if i.t = itemPackage then
      match parseLoopF fuel (pnext ts).2 with
      | .error e => .error e
      | .ok (o, r) => .ok ("package ".toList ++ i.s ++ ";".toList ++ o, r)
    else if i.t = itemOption then
      -- `j := <-p.c` reads the channel directly, past the peeked head
      let (j, ts2) := pnext (pnext ts).2
      if j.t ≠ itemOptionName then .error "parser: expected option value"
      else
        match parseLoopF fuel ts2 with
        | .error e => .error e
        | .ok (o, r) =>
          .ok ("option ".toList ++ i.s ++ " = ".toList ++ j.s ++ ";".toList ++ o, r)
    else if i.t = itemMessageType then
      match parseMessageF fuel 0 ts with
      | .error e => .error e
      | .ok (o1, ts2) =>
        match parseLoopF fuel ts2 with
        | .error e => .error e
        | .ok (o2, r) => .ok (o1 ++ o2, r)
    else if i.t = itemEnum then
      .error "diverges: the empty itemEnum case at top level never consumes the token"
    else if i.t = itemCommentStart then
      .error "diverges: the empty itemCommentStart case at top level never consumes the token"
    else
      .error "diverges: no switch case at top level for this token kind"

/-- Run the translator on a token stream, as `parser.parse` does from the
start of the document. -/
def parseTop (ts : List Item) : Except String Str :=
  match parseLoopF (4 * ts.length + 8) ts with
  | .error e => .error e
  | .ok (o, _) => .ok o

/-- The whole pipeline of `main`: tokenize, then translate.  (In Go the two
run concurrently over a rendezvous channel; with a single consumer pulling
in order this is observationally the token list below.) -/
def pipeline (input : Str) : Except String Str :=
  match lex input with
  | .error e => .error e
  | .ok ts => parseTop ts

/-! ## Helper lemmas -/

instance {ε α : Type _} [DecidableEq ε] [DecidableEq α] : DecidableEq (Except ε α) := fun a b =>
  match a, b with
  | .error e1, .error e2 =>
    if h : e1 = e2 then .isTrue (congrArg Except.error h)
    else .isFalse fun c => h (Except.error.inj c)
  | .ok v1, .ok v2 =>
    if h : v1 = v2 then .isTrue (congrArg Except.ok h)
    else .isFalse fun c => h (Except.ok.inj c)
  | .error _, .ok _ => .isFalse fun c => Except.noConfusion c
  | .ok _, .error _ => .isFalse fun c => Except.noConfusion c

theorem takeWhile_append_all {p : Char → Bool} {l1 : Str} (l2 : Str)
    (h : ∀ a ∈ l1, p a = true) :
    (l1 ++ l2).takeWhile p = l1 ++ l2.takeWhile p := by
  induction l1 with
  | nil => simp
  | cons a r ih =>
    have ha := h a (List.mem_cons_self a r)
    simp [List.takeWhile_cons, ha, ih fun x hx => h x (List.mem_cons_of_mem _ hx)]

theorem dropWhile_append_all {p : Char → Bool} {l1 : Str} (l2 : Str)
    (h : ∀ a ∈ l1, p a = true) :
    (l1 ++ l2).dropWhile p = l2.dropWhile p := by
  induction l1 with
  | nil => simp
  | cons a r ih =>
    have ha := h a (List.mem_cons_self a r)
    simp [List.dropWhile_cons, ha, ih fun x hx => h x (List.mem_cons_of_mem _ hx)]

theorem isPrefixOf_append_self (l1 l2 : Str) : l1.isPrefixOf (l1 ++ l2) = true := by
  induction l1 with
  | nil => simp [List.isPrefixOf]
  | cons a r ih => simp [List.isPrefixOf, ih]

theorem strIndex_append_of_not_mem (K V : Str) (h : ']' ∉ K) :
    strIndex (K ++ ']' :: V) ']' = some K.length := by
  induction K with
  | nil => simp [strIndex]
  | cons a r ih =>
    have ha : a ≠ ']' := fun e => h (e ▸ List.mem_cons_self a r)
    have h2 : ']' ∉ r := fun hr => h (List.mem_cons_of_mem _ hr)
    simp [strIndex, ha, ih h2]

theorem strIndex_map_concat (K V : Str) (h : ']' ∉ K) :
    strIndex ("map[".toList ++ K ++ ']' :: V) ']' = some (4 + K.length) := by
  show strIndex ('m' :: 'a' :: 'p' :: '[' :: (K ++ ']' :: V)) ']' = some (4 + K.length)
  simp [strIndex, strIndex_append_of_not_mem K V h]
  omega

theorem take_map_concat (K V : Str) :
    (("map[".toList ++ K ++ ']' :: V).take (4 + K.length)).drop 4 = K := by
  have hsplit : ("map[".toList ++ K ++ ']' :: V) = ('m' :: 'a' :: 'p' :: '[' :: K) ++ (']' :: V) := by
    simp
  rw [hsplit, List.take_left' (by simp; omega)]
  rfl

theorem drop_map_concat (K V : Str) :
    ("map[".toList ++ K ++ ']' :: V).drop (4 + K.length + 1) = V := by
  have hsplit : ("map[".toList ++ K ++ ']' :: V) = (('m' :: 'a' :: 'p' :: '[' :: K) ++ [']']) ++ V := by
    simp
  rw [hsplit, List.drop_left' (by simp; omega)]

theorem convertType_map (K V : Str) (h : ']' ∉ K) :
    convertType ("map[".toList ++ K ++ ']' :: V) =
      .ok ("map<".toList ++ toProtoType K ++ ", ".toList ++ toProtoType V ++ ">".toList) := by
  have hpre : "map[".toList.isPrefixOf ("map[".toList ++ K ++ ']' :: V) = true := by
    rw [List.append_assoc]
    exact isPrefixOf_append_self _ _
  unfold convertType
  rw [if_pos hpre, strIndex_map_concat K V h]
  simp only [take_map_concat, drop_map_concat]

theorem convertType_repeated (T : Str) :
    convertType ('[' :: ']' :: T) = .ok ("repeated ".toList ++ toProtoType T) := by
  have h1 : "map[".toList.isPrefixOf ('[' :: ']' :: T) = false := by
    simp [List.isPrefixOf]
  have h2 : "[]".toList.isPrefixOf ('[' :: ']' :: T) = true := by
    simp [List.isPrefixOf]
  simp [convertType, h1, h2]

theorem convertType_optional (T : Str)
    (h1 : "map[".toList.isPrefixOf T = false)
    (h2 : "[]".toList.isPrefixOf T = false) :
    convertType T = .ok ("optional ".toList ++ toProtoType T) := by
  have h1n : ¬("map[".toList.isPrefixOf T = true) := fun hc => by
    rw [hc] at h1; exact Bool.noConfusion h1
  have h2n : ¬("[]".toList.isPrefixOf T = true) := fun hc => by
    rw [hc] at h2; exact Bool.noConfusion h2
  unfold convertType
  rw [if_neg h1n, if_neg h2n]

/-! ## The claims -/

/-- **C1** — counterexample.  On the spec's round-trip input the program
does NOT print the text the claim demands: `parser.write` prepends
`strings.Repeat("  ", lvl)` where `lvl` is the raw indentation width of the
child line (2), so the field lines carry FOUR spaces, and the closing brace
line ends in a newline. -/
theorem C1_round_trip_claim_false :
    pipeline "package example\nmsg MyMessage\n  foo str 1\n  bar []int 3\n".toList ≠
      Except.ok "package example;\nmessage MyMessage \x7b\n  optional string foo = 1;\n  repeated int bar = 3;\n\x7d".toList := by
  decide

/-- **C1** (amended): on the round-trip input the translator's complete
output is the claimed text with the two field lines indented by four spaces
(two spaces per raw indentation character) and a newline after the closing
brace. -/
theorem C1_round_trip_amended :
    pipeline "package example\nmsg MyMessage\n  foo str 1\n  bar []int 3\n".toList =
      Except.ok "package example;\nmessage MyMessage \x7b\n    optional string foo = 1;\n    repeated int bar = 3;\n\x7d\n".toList := by
  decide

/-- **C2**: type conversion is a pure function of the raw field-type lexeme:
the three concrete mappings of the spec, the general `map[K]V`, `[]T` and
bare-type laws, and the builtin alias table (`str → string`, everything
else unchanged).  In `map[K]V` the key `K` is whatever precedes the FIRST
`]`, so the decomposition hypothesis is that `K` contains no `]`. -/
theorem C2_type_conversion :
    convertType "[]int".toList = .ok "repeated int".toList ∧
    convertType "str".toList = .ok "optional string".toList ∧
    convertType "map[str]int".toList = .ok "map<string, int>".toList ∧
    (∀ K V : Str, ']' ∉ K →
      convertType ("map[".toList ++ K ++ ']' :: V) =
        .ok ("map<".toList ++ toProtoType K ++ ", ".toList ++ toProtoType V ++ ">".toList)) ∧
    (∀ T : Str, convertType ('[' :: ']' :: T) = .ok ("repeated ".toList ++ toProtoType T)) ∧
    (∀ T : Str, "map[".toList.isPrefixOf T = false → "[]".toList.isPrefixOf T = false →
      convertType T = .ok ("optional ".toList ++ toProtoType T)) ∧
    toProtoType "str".toList = "string".toList ∧
    (∀ T : Str, T ≠ "str".toList → toProtoType T = T) := by
  refine ⟨by decide, by decide, by decide, convertType_map, convertType_repeated,
    convertType_optional, rfl, ?_⟩
  intro T h
  unfold toProtoType
  rw [if_neg h]

/-- Witness for `C2_type_conversion`: the general laws evaluated at
`map[str]int`, the bare type `int`, and the alias check at `int`. -/
theorem C2_type_conversion_witness :
    convertType ("map[".toList ++ "str".toList ++ ']' :: "int".toList) =
      .ok ("map<".toList ++ toProtoType "str".toList ++ ", ".toList ++
           toProtoType "int".toList ++ ">".toList) ∧
    convertType "int".toList = .ok ("optional ".toList ++ toProtoType "int".toList) ∧
    toProtoType "int".toList = "int".toList :=
  ⟨C2_type_conversion.2.2.2.1 _ _ (by decide),
   C2_type_conversion.2.2.2.2.2.1 _ (by decide) (by decide),
   C2_type_conversion.2.2.2.2.2.2.2 _ (by decide)⟩

/-- **C3** — the code, not the claim: on the field line `foo str` with no
tag number the lexer's `readNum` returns the empty string and
`scanFieldNum` emits a FieldNum token with empty lexeme; the parser accepts
it (it checks only the token kind) and prints the corrupted declaration
`optional string foo = ;` with no error at all. -/
theorem C3_missing_tag_emits_corrupted_output :
    pipeline "msg M\n  foo str\n".toList =
      Except.ok "message M \x7b\n    optional string foo = ;\n\x7d\n".toList := by
  decide

/-! ## Single-step laws of the message-block loop -/

theorem parseMessageLoopF_establish (fuel lvl : Nat) (w : Str) (rest : List Item)
    (h : w ≠ []) :
    parseMessageLoopF (fuel + 1) lvl 0 (⟨itemWhitespace, w⟩ :: rest) =
      parseMessageLoopF (fuel + 1) lvl w.length (⟨itemWhitespace, w⟩ :: rest) := by
  have h0 : w.length ≠ 0 := by simpa using h
  simp [parseMessageLoopF, ppeek, pnext, h0]

theorem parseMessageLoopF_close (fuel lvl level : Nat) (w : Str) (rest : List Item)
    (h : w.length < level) :
    parseMessageLoopF (fuel + 1) lvl level (⟨itemWhitespace, w⟩ :: rest) =
      .ok (writeIndent lvl ++ "\x7d\n".toList, ⟨itemWhitespace, w⟩ :: rest) := by
  have h0 : level ≠ 0 := by omega
  simp [parseMessageLoopF, ppeek, pnext, h0, h]

theorem parseMessageLoopF_child (fuel lvl level : Nat) (w : Str) (rest : List Item)
    (h0 : 0 < level) (h1 : ¬ w.length < level) :
    parseMessageLoopF (fuel + 1) lvl level (⟨itemWhitespace, w⟩ :: rest) =
      match parseMessageInnerF fuel level rest with
      | .error e => .error e
      | .ok (out1, ts2) =>
        match parseMessageLoopF fuel lvl level ts2 with
        | .error e => .error e
        | .ok (out2, ts3) => .ok (out1 ++ out2, ts3) := by
  have hl : level ≠ 0 := by omega
  simp [parseMessageLoopF, ppeek, pnext, hl, h1]

theorem parseMessageInnerF_comment (fuel lvl : Nat) (c s : Str) (rest : List Item) :
    parseMessageInnerF (fuel + 1) lvl (⟨itemCommentStart, c⟩ :: ⟨itemNewline, s⟩ :: rest) =
      .ok (writeIndent lvl ++ "// ".toList ++ trimLeftHashSpace c ++ "\n".toList, rest) := by
  simp [parseMessageInnerF, parseNewline, ppeek, pnext]

/-- **C4**: inside `parseMessage`'s loop, (1) the width of the first child's
Whitespace token becomes the block's established level (`messageLevel`) for
the remainder of the loop, (2) a later sibling whose width is smaller than
the established level closes the block at once — the loop returns with the
closing brace emitted, the Whitespace token NOT consumed, and is never
re-entered — and (3) a sibling at the established level or deeper is
consumed and dispatched as a child with the level carried through
unchanged (no re-validation against any intermediate level). -/
theorem C4_established_indent_level :
    (∀ fuel lvl : Nat, ∀ w : Str, ∀ rest : List Item, w ≠ [] →
      parseMessageLoopF (fuel + 1) lvl 0 (⟨itemWhitespace, w⟩ :: rest) =
        parseMessageLoopF (fuel + 1) lvl w.length (⟨itemWhitespace, w⟩ :: rest)) ∧
    (∀ fuel lvl level : Nat, ∀ w : Str, ∀ rest : List Item, w.length < level →
      parseMessageLoopF (fuel + 1) lvl level (⟨itemWhitespace, w⟩ :: rest) =
        .ok (writeIndent lvl ++ "\x7d\n".toList, ⟨itemWhitespace, w⟩ :: rest)) ∧
    (∀ fuel lvl level : Nat, ∀ w : Str, ∀ rest : List Item, 0 < level → ¬ w.length < level →
      parseMessageLoopF (fuel + 1) lvl level (⟨itemWhitespace, w⟩ :: rest) =
        match parseMessageInnerF fuel level rest with
        | .error e => .error e
        | .ok (out1, ts2) =>
          match parseMessageLoopF fuel lvl level ts2 with
          | .error e => .error e
          | .ok (out2, ts3) => .ok (out1 ++ out2, ts3)) :=
  ⟨parseMessageLoopF_establish, parseMessageLoopF_close, parseMessageLoopF_child⟩

/-- Witness for `C4_established_indent_level` at concrete inputs. -/
theorem C4_established_indent_level_witness :
    parseMessageLoopF 1 0 0 [⟨itemWhitespace, "  ".toList⟩] =
      parseMessageLoopF 1 0 2 [⟨itemWhitespace, "  ".toList⟩] ∧
    parseMessageLoopF 1 0 2 [⟨itemWhitespace, [' ']⟩] =
      .ok (writeIndent 0 ++ "\x7d\n".toList, [⟨itemWhitespace, [' ']⟩]) ∧
    parseMessageLoopF 3 0 2 [⟨itemWhitespace, "  ".toList⟩] =
      match parseMessageInnerF 2 2 [] with
      | .error e => .error e
      | .ok (out1, ts2) =>
        match parseMessageLoopF 2 0 2 ts2 with
        | .error e => .error e
        | .ok (out2, ts3) => .ok (out1 ++ out2, ts3) :=
  ⟨C4_established_indent_level.1 0 0 _ _ (by decide),
   C4_established_indent_level.2.1 0 0 2 _ _ (by decide),
   C4_established_indent_level.2.2 2 0 2 _ _ (by decide) (by decide)⟩

/-- **C5**: when a peeked Whitespace token's width is below the established
level the loop returns with that token still at the head of the remaining
stream (it stays in the lookahead slot for the enclosing block), and on the
concrete nested input a `msg` inside a `msg` emits its own closing brace
before the parent resumes with its next sibling at the parent's original
level. -/
theorem C5_nested_close_order :
    (∀ fuel lvl level : Nat, ∀ w : Str, ∀ rest : List Item, w.length < level →
      ∃ out : Str,
        parseMessageLoopF (fuel + 1) lvl level (⟨itemWhitespace, w⟩ :: rest) =
          .ok (out, ⟨itemWhitespace, w⟩ :: rest)) ∧
    pipeline "msg A\n  msg B\n    x int 1\n  y int 2\n".toList =
      .ok "message A \x7b\n    message B \x7b\n        optional int x = 1;\n    \x7d\n    optional int y = 2;\n\x7d\n".toList := by
  refine ⟨fun fuel lvl level w rest h => ⟨_, parseMessageLoopF_close fuel lvl level w rest h⟩, ?_⟩
  decide

/-- Witness for `C5_nested_close_order`. -/
theorem C5_nested_close_order_witness :
    ∃ out : Str, parseMessageLoopF 1 0 2 [⟨itemWhitespace, [' ']⟩] =
      .ok (out, [⟨itemWhitespace, [' ']⟩]) :=
  C5_nested_close_order.1 0 0 2 [' '] [] (by decide)

theorem parseMessageLoopF_comment_keeps_level (fuel lvl level : Nat) (w c s : Str)
    (rest : List Item) (h0 : 0 < level) (h1 : ¬ w.length < level) :
    parseMessageLoopF (fuel + 2) lvl level
        (⟨itemWhitespace, w⟩ :: ⟨itemCommentStart, c⟩ :: ⟨itemNewline, s⟩ :: rest) =
      match parseMessageLoopF (fuel + 1) lvl level rest with
      | .error e => .error e
      | .ok (o, r) =>
        .ok (writeIndent level ++ "// ".toList ++ trimLeftHashSpace c ++ "\n".toList ++ o, r) := by
  have hc := parseMessageLoopF_child (fuel + 1) lvl level w
    (⟨itemCommentStart, c⟩ :: ⟨itemNewline, s⟩ :: rest) h0 h1
  rw [hc, parseMessageInnerF_comment]

/-- **C6** — counterexample.  For the comment line `#  hi` (two spaces after
the hash) inside a message, the translator emits `// hi`, not the `//  hi`
that stripping exactly one `#` and one space would give:
`strings.TrimLeft(s, "# ")` strips EVERY leading `#` and space. -/
theorem C6_comment_strip_claim_false :
    pipeline "msg M\n  #  hi\n".toList = .ok "message M \x7b\n    // hi\n\x7d\n".toList ∧
    pipeline "msg M\n  #  hi\n".toList ≠ .ok "message M \x7b\n    //  hi\n\x7d\n".toList := by
  exact ⟨by decide, by decide⟩

/-- **C6** (amended): a comment line inside a message block emits
`// <text>` where ALL leading `#` and space characters are stripped from
the lexeme (`strings.TrimLeft(s, "# ")`), and processing the comment leaves
the block's established indentation level unchanged — the loop continues at
the same `messageLevel`. -/
theorem C6_comment_trimleft_amended :
    (∀ fuel lvl : Nat, ∀ c s : Str, ∀ rest : List Item,
      parseMessageInnerF (fuel + 1) lvl (⟨itemCommentStart, c⟩ :: ⟨itemNewline, s⟩ :: rest) =
        .ok (writeIndent lvl ++ "// ".toList ++ trimLeftHashSpace c ++ "\n".toList, rest)) ∧
    (∀ fuel lvl level : Nat, ∀ w c s : Str, ∀ rest : List Item, 0 < level → ¬ w.length < level →
      parseMessageLoopF (fuel + 2) lvl level
          (⟨itemWhitespace, w⟩ :: ⟨itemCommentStart, c⟩ :: ⟨itemNewline, s⟩ :: rest) =
        match parseMessageLoopF (fuel + 1) lvl level rest with
        | .error e => .error e
        | .ok (o, r) =>
          .ok (writeIndent level ++ "// ".toList ++ trimLeftHashSpace c ++ "\n".toList ++ o, r)) :=
  ⟨parseMessageInnerF_comment, parseMessageLoopF_comment_keeps_level⟩

/-- Witness for `C6_comment_trimleft_amended`. -/
theorem C6_comment_trimleft_amended_witness :
    parseMessageLoopF 2 0 2
        (⟨itemWhitespace, "  ".toList⟩ :: ⟨itemCommentStart, "# x".toList⟩ ::
         ⟨itemNewline, []⟩ :: []) =
      match parseMessageLoopF 1 0 2 ([] : List Item) with
      | .error e => .error e
      | .ok (o, r) =>
        .ok (writeIndent 2 ++ "// ".toList ++ trimLeftHashSpace "# x".toList ++ "\n".toList ++ o, r) :=
  C6_comment_trimleft_amended.2 0 0 2 _ _ _ _ (by decide) (by decide)

/-! ## Laws of option declarations -/

theorem readStr_missing_open (c : Char) (rest : Str) (h : c ≠ dquote) :
    readStr (c :: rest) = .error "string missing opening quote" := by
  simp [readStr, h]

theorem readStr_nil : readStr [] = .error "string missing opening quote" := rfl

theorem readStr_unterminated (v tail : Str) (hv : ∀ c ∈ v, strPred c = true) :
    readStr (dquote :: (v ++ '\n' :: tail)) = .error "string missing end quote" := by
  have hd := dropWhile_append_all (p := strPred) ('\n' :: tail) hv
  have hnl : strPred '\n' = false := by decide
  have hne : ('\n' : Char) ≠ dquote := by decide
  simp [readStr, hd, List.dropWhile_cons, hnl, hne]

theorem readStr_law (v r : Str) (hv : ∀ c ∈ v, strPred c = true) :
    readStr (dquote :: (v ++ dquote :: r)) = .ok (dquote :: (v ++ [dquote]), r) := by
  have ht := takeWhile_append_all (p := strPred) (dquote :: r) hv
  have hd := dropWhile_append_all (p := strPred) (dquote :: r) hv
  have hq : strPred dquote = false := by decide
  simp [readStr, ht, hd, List.takeWhile_cons, List.dropWhile_cons, hq]

theorem scanFileOption_law (key v tail : Str)
    (hk : ∀ c ∈ key, isOptionChar c = true) (hv : ∀ c ∈ v, strPred c = true) :
    scanFileOption (key ++ ' ' :: dquote :: (v ++ dquote :: '\n' :: tail)) =
      .ok ([⟨itemOption, key⟩, ⟨itemOptionName, dquote :: (v ++ [dquote])⟩],
           some (.lineEnd, '\n' :: tail)) := by
  have ht := takeWhile_append_all (p := isOptionChar)
    (' ' :: dquote :: (v ++ dquote :: '\n' :: tail)) hk
  have hd := dropWhile_append_all (p := isOptionChar)
    (' ' :: dquote :: (v ++ dquote :: '\n' :: tail)) hk
  have hsp : isOptionChar ' ' = false := by decide
  have hq : isSpaceTab dquote = false := by decide
  have hsp2 : isSpaceTab ' ' = true := by decide
  simp [scanFileOption, readOption, readFunc, readWhitespace, ht, hd,
        List.takeWhile_cons, List.dropWhile_cons, hsp, hq, hsp2,
        readStr_law v ('\n' :: tail) hv]

theorem parseLoopF_option (fuel : Nat) (k v : Str) (rest : List Item) :
    parseLoopF (fuel + 1) (⟨itemOption, k⟩ :: ⟨itemOptionName, v⟩ :: rest) =
      match parseLoopF fuel rest with
      | .error e => .error e
      | .ok (o, r) =>
        .ok ("option ".toList ++ k ++ " = ".toList ++ v ++ ";".toList ++ o, r) := by
  simp [parseLoopF, ppeek, pnext]

theorem parseLoopF_option_missing_value (fuel : Nat) (k : Str) (j : Item)
    (rest : List Item) (h : j.t ≠ itemOptionName) :
    parseLoopF (fuel + 1) (⟨itemOption, k⟩ :: j :: rest) =
      .error "parser: expected option value" := by
  simp [parseLoopF, ppeek, pnext, h]

/-- **C7** — counterexample.  A dotted option key is NOT emitted as a single
Option token: `readOption` accepts letters, digits, `_`, `(`, `)` but not
`.`, so on `option a.b "v"` the key scan stops at the dot and the value
scanner then fails with the Go panic `string missing opening quote`. -/
theorem C7_dotted_key_claim_false :
    lex "option a.b \"v\"\n".toList = .error "string missing opening quote" := by
  decide

/-- **C7** (amended): for option keys over `readOption`'s alphabet
(letters, digits, `_`, `(`, `)` — dots excluded), the tokenizer emits the
whole key as one Option token followed by an OptionValue token whose lexeme
retains the double quotes; a missing opening quote or a quote left
unterminated at the end of the line is a lexical error; and the translator
emits `option <key> = <value>;` for an Option token immediately followed by
an OptionValue token, and signals a structural error otherwise. -/
theorem C7_option_declarations_amended :
    (∀ key v tail : Str, (∀ c ∈ key, isOptionChar c = true) → (∀ c ∈ v, strPred c = true) →
      scanFileOption (key ++ ' ' :: dquote :: (v ++ dquote :: '\n' :: tail)) =
        .ok ([⟨itemOption, key⟩, ⟨itemOptionName, dquote :: (v ++ [dquote])⟩],
             some (.lineEnd, '\n' :: tail))) ∧
    (∀ c : Char, ∀ rest : Str, c ≠ dquote →
      readStr (c :: rest) = .error "string missing opening quote") ∧
    readStr [] = .error "string missing opening quote" ∧
    (∀ v tail : Str, (∀ c ∈ v, strPred c = true) →
      readStr (dquote :: (v ++ '\n' :: tail)) = .error "string missing end quote") ∧
    (∀ fuel : Nat, ∀ k v : Str, ∀ rest : List Item,
      parseLoopF (fuel + 1) (⟨itemOption, k⟩ :: ⟨itemOptionName, v⟩ :: rest) =
        match parseLoopF fuel rest with
        | .error e => .error e
        | .ok (o, r) =>
          .ok ("option ".toList ++ k ++ " = ".toList ++ v ++ ";".toList ++ o, r)) ∧
    (∀ fuel : Nat, ∀ k : Str, ∀ j : Item, ∀ rest : List Item, j.t ≠ itemOptionName →
      parseLoopF (fuel + 1) (⟨itemOption, k⟩ :: j :: rest) =
        .error "parser: expected option value") :=
  ⟨scanFileOption_law, readStr_missing_open, readStr_nil, readStr_unterminated,
   parseLoopF_option, parseLoopF_option_missing_value⟩

/-- Witness for `C7_option_declarations_amended`: a parenthesized key with a
quoted value, a dotted remainder hitting the missing-quote error, an
unterminated value, and the structural-error case. -/
theorem C7_option_declarations_amended_witness :
    scanFileOption ("(my_opt)".toList ++ ' ' :: dquote :: ("v1".toList ++ dquote :: '\n' :: [])) =
      .ok ([⟨itemOption, "(my_opt)".toList⟩, ⟨itemOptionName, dquote :: ("v1".toList ++ [dquote])⟩],
           some (.lineEnd, ['\n'])) ∧
    readStr ('.' :: "b".toList) = .error "string missing opening quote" ∧
    readStr (dquote :: ("v".toList ++ '\n' :: [])) = .error "string missing end quote" ∧
    parseLoopF 1 [⟨itemOption, "k".toList⟩, ⟨itemNewline, []⟩] =
      .error "parser: expected option value" :=
  ⟨C7_option_declarations_amended.1 _ _ _ (by decide) (by decide),
   C7_option_declarations_amended.2.1 '.' _ (by decide),
   C7_option_declarations_amended.2.2.2.1 _ _ (by decide),
   C7_option_declarations_amended.2.2.2.2.2 0 _ _ _ (by decide)⟩

/-! ## Field options -/

theorem scanFieldOptions_law (content rest : Str)
    (h : ∀ c ∈ content, (c != ']' && c != '\n') = true) :
    scanFieldOptions ('[' :: (content ++ ']' :: rest)) =
      .ok ([⟨itemFieldOption, content⟩], some (.lineEnd, rest)) := by
  have ht := takeWhile_append_all (p := fun ch => ch != ']' && ch != '\n') (']' :: rest) h
  have hd := dropWhile_append_all (p := fun ch => ch != ']' && ch != '\n') (']' :: rest) h
  simp [scanFieldOptions, ht, hd, List.takeWhile_cons, List.dropWhile_cons]

theorem parseField_with_option (lvl : Nat) (n t num o s ct : Str) (rest : List Item)
    (hct : convertType t = .ok ct) :
    parseField lvl (⟨itemIdentifier, n⟩ :: ⟨itemFieldType, t⟩ :: ⟨itemFieldNum, num⟩ ::
        ⟨itemFieldOption, o⟩ :: ⟨itemNewline, s⟩ :: rest) =
      .ok (writeIndent lvl ++ ct ++ " ".toList ++ n ++ " = ".toList ++ num ++
           " [".toList ++ o ++ "]".toList ++ ";\n".toList, rest) := by
  simp [parseField, pnext, hct]

/-- **C8**: a bracketed field option is captured by the tokenizer verbatim —
everything strictly between `[` and the next `]` becomes one FieldOption
token — and the translator prints exactly that text inside `[...]` after
the field declaration and before the terminating `;`; the spec's concrete
example `bar int 2 [deprecated]` round-trips accordingly. -/
theorem C8_field_options_verbatim :
    (∀ content rest : Str, (∀ c ∈ content, (c != ']' && c != '\n') = true) →
      scanFieldOptions ('[' :: (content ++ ']' :: rest)) =
        .ok ([⟨itemFieldOption, content⟩], some (.lineEnd, rest))) ∧
    (∀ lvl : Nat, ∀ n t num o s ct : Str, ∀ rest : List Item, convertType t = .ok ct →
      parseField lvl (⟨itemIdentifier, n⟩ :: ⟨itemFieldType, t⟩ :: ⟨itemFieldNum, num⟩ ::
          ⟨itemFieldOption, o⟩ :: ⟨itemNewline, s⟩ :: rest) =
        .ok (writeIndent lvl ++ ct ++ " ".toList ++ n ++ " = ".toList ++ num ++
             " [".toList ++ o ++ "]".toList ++ ";\n".toList, rest)) ∧
    pipeline "msg M\n  bar int 2 [deprecated]\n".toList =
      .ok "message M \x7b\n    optional int bar = 2 [deprecated];\n\x7d\n".toList := by
  exact ⟨scanFieldOptions_law, fun lvl n t num o s ct rest => parseField_with_option lvl n t num o s ct rest, by decide⟩

/-- Witness for `C8_field_options_verbatim`. -/
theorem C8_field_options_verbatim_witness :
    scanFieldOptions ('[' :: ("deprecated".toList ++ ']' :: "\n".toList)) =
      .ok ([⟨itemFieldOption, "deprecated".toList⟩], some (.lineEnd, "\n".toList)) ∧
    parseField 2 (⟨itemIdentifier, "bar".toList⟩ :: ⟨itemFieldType, "int".toList⟩ ::
        ⟨itemFieldNum, "2".toList⟩ :: ⟨itemFieldOption, "deprecated".toList⟩ ::
        ⟨itemNewline, []⟩ :: []) =
      .ok (writeIndent 2 ++ "optional int".toList ++ " ".toList ++ "bar".toList ++
           " = ".toList ++ "2".toList ++ " [".toList ++ "deprecated".toList ++
           "]".toList ++ ";\n".toList, []) :=
  ⟨C8_field_options_verbatim.1 _ _ (by decide),
   C8_field_options_verbatim.2.1 2 _ _ _ _ [] _ [] (by decide)⟩

/-! ## Enum comments -/

theorem parseEnumLoopF_comment_short (fuel lvl level : Nat) (w c : Str)
    (rest : List Item) (h0 : 0 < level) (h1 : ¬ w.length < level) (h2 : c.length < 2) :
    parseEnumLoopF (fuel + 1) lvl level
        (⟨itemWhitespace, w⟩ :: ⟨itemCommentStart, c⟩ :: rest) =
      .error "slice bounds out of range" := by
  have hl : level ≠ 0 := by omega
  have hs : ¬ (2 ≤ c.length) := by omega
  simp [parseEnumLoopF, ppeek, pnext, goSliceFrom, hl, h1, hs]

theorem parseEnumLoopF_comment_ok (fuel lvl level : Nat) (w c s : Str)
    (rest : List Item) (h0 : 0 < level) (h1 : ¬ w.length < level) (h2 : 2 ≤ c.length) :
    parseEnumLoopF (fuel + 1) lvl level
        (⟨itemWhitespace, w⟩ :: ⟨itemCommentStart, c⟩ :: ⟨itemNewline, s⟩ :: rest) =
      match parseEnumLoopF fuel lvl level rest with
      | .error e => .error e
      | .ok (o, r) =>
        .ok (writeIndent level ++ "// ".toList ++ c.drop 2 ++ "\n".toList ++ o, r) := by
  have hl : level ≠ 0 := by omega
  simp [parseEnumLoopF, ppeek, pnext, goSliceFrom, parseNewline, hl, h1, h2]

/-- **C9**: the enum body's comment handler emits `// ` plus the lexeme with
its first two bytes sliced off (`j.s[2:]`), which is a Go slice
bounds panic whenever the comment lexeme is shorter than two characters —
e.g. the line containing only `#` aborts the whole pipeline — and is total
exactly when the lexeme has length at least two. -/
theorem C9_enum_comment_slice :
    (∀ fuel lvl level : Nat, ∀ w c : Str, ∀ rest : List Item,
      0 < level → ¬ w.length < level → c.length < 2 →
      parseEnumLoopF (fuel + 1) lvl level
          (⟨itemWhitespace, w⟩ :: ⟨itemCommentStart, c⟩ :: rest) =
        .error "slice bounds out of range") ∧
    (∀ fuel lvl level : Nat, ∀ w c s : Str, ∀ rest : List Item,
      0 < level → ¬ w.length < level → 2 ≤ c.length →
      parseEnumLoopF (fuel + 1) lvl level
          (⟨itemWhitespace, w⟩ :: ⟨itemCommentStart, c⟩ :: ⟨itemNewline, s⟩ :: rest) =
        match parseEnumLoopF fuel lvl level rest with
        | .error e => .error e
        | .ok (o, r) =>
          .ok (writeIndent level ++ "// ".toList ++ c.drop 2 ++ "\n".toList ++ o, r)) ∧
    pipeline "msg M\n  enum E\n    #\n".toList = .error "slice bounds out of range" :=
  ⟨parseEnumLoopF_comment_short, parseEnumLoopF_comment_ok, by decide⟩

/-- Witness for `C9_enum_comment_slice`: the lexeme `#` (length 1) aborts,
the lexeme `# a` (length 3) emits `// a`. -/
theorem C9_enum_comment_slice_witness :
    parseEnumLoopF 1 0 4 (⟨itemWhitespace, "    ".toList⟩ :: ⟨itemCommentStart, ['#']⟩ :: []) =
      .error "slice bounds out of range" ∧
    parseEnumLoopF 2 0 4 (⟨itemWhitespace, "    ".toList⟩ :: ⟨itemCommentStart, "# a".toList⟩ ::
        ⟨itemNewline, []⟩ :: []) =
      match parseEnumLoopF 1 0 4 ([] : List Item) with
      | .error e => .error e
      | .ok (o, r) =>
        .ok (writeIndent 4 ++ "// ".toList ++ "# a".toList.drop 2 ++ "\n".toList ++ o, r) :=
  ⟨C9_enum_comment_slice.1 0 0 4 _ _ [] (by decide) (by decide) (by decide),
   C9_enum_comment_slice.2.1 1 0 4 _ _ [] [] (by decide) (by decide) (by decide)⟩

/-! ## End-of-input behavior of the line-end state -/

theorem scanEnd_at_eof (input : Str) (h : ∀ c ∈ input, isSpaceTab c = true) :
    scanEnd input = .error ("unexpected line end ".push rune0) := by
  have hd : input.dropWhile isSpaceTab = [] := by
    induction input with
    | nil => rfl
    | cons a r ih =>
      simp [List.dropWhile_cons, h a (List.mem_cons_self a r),
            ih fun x hx => h x (List.mem_cons_of_mem _ hx)]
  simp [scanEnd, readWhitespace, hd]

/-- **C10** — counterexample.  A document whose final line is a comment not
terminated by a newline tokenizes successfully: `scanComment` reads the
rest of the line through `bufio.ReadLine`, which returns the data with no
error at end of input, so `# hi` (without a trailing newline) yields a
Comment token and a Newline token and the machine terminates cleanly — no
`unexpected line end` abort. -/
theorem C10_missing_newline_claim_false :
    lex "# hi".toList =
      .ok [⟨itemCommentStart, "# hi".toList⟩, ⟨itemNewline, []⟩] := by
  decide

/-- **C10** (amended): the `unexpected line end` abort happens whenever the
tokenizer reaches the line-end state (`scanEnd`) with only trailing
spaces/tabs left before end of input — the state accepts only `#` or a
newline, and end of input is read as the rune 0, which is reported in the
panic text; every package/header/option/field final line without a
terminating newline ends in this state and aborts (two concrete documents
below), while a final line ending inside a comment does not pass through
`scanEnd` and tokenizes successfully. -/
theorem C10_missing_newline_amended :
    (∀ input : Str, (∀ c ∈ input, isSpaceTab c = true) →
      scanEnd input = .error ("unexpected line end ".push rune0)) ∧
    lex "package example".toList = .error ("unexpected line end ".push rune0) ∧
    lex "msg M\n  foo str 1".toList = .error ("unexpected line end ".push rune0) :=
  ⟨scanEnd_at_eof, by decide, by decide⟩

/-- Witness for `C10_missing_newline_amended`. -/
theorem C10_missing_newline_amended_witness :
    scanEnd [' ', '\t'] = .error ("unexpected line end ".push rune0) :=
  C10_missing_newline_amended.1 [' ', '\t'] (by decide)
